import Mathlib

set_option maxHeartbeats 1000000

namespace ScoringApi

/-! Shallow embedding of the scoring API (src/api.py) and of the resilient
store client described by the spec (store.py is referenced by the tests but
its source is not part of src/). -/

/-- A single-quote character, used when rendering Python repr strings. -/
def sq : String := (Char.ofNat 39).toString

/-- JSON-like values that can appear in a request body (Python objects
produced by json.loads: None, str, int, list, dict). -/
inductive Value where
  | null
  | str (s : String)
  | int (n : Int)
  | list (xs : List Value)
  | dict (kvs : List (String × Value))

/-- A calendar date, the result of datetime.strptime (time-of-day parts of
the Python datetime are never consulted by the code). -/
structure PyDate where
  year : Nat
  month : Nat
  day : Nat
deriving DecidableEq, Repr

/-- Python repr() of a value, as used inside str() of containers. -/
def pyRepr : Value → String
  | .null => "None"
  | .str s => sq ++ s ++ sq
  | .int n => toString n
  | .list xs => "[" ++ String.intercalate ", " (xs.attach.map (fun x => pyRepr x.1)) ++ "]"
  | .dict kvs => "\x7b" ++
      String.intercalate ", "
        (kvs.attach.map (fun p => sq ++ p.1.1 ++ sq ++ ": " ++ pyRepr p.1.2)) ++ "\x7d"
decreasing_by
  · simp only [Value.list.sizeOf_spec]
    exact Nat.lt_add_left 1 (List.sizeOf_lt_of_mem x.2)
  · simp only [Value.dict.sizeOf_spec]
    have h1 : sizeOf p.1 < sizeOf kvs := List.sizeOf_lt_of_mem p.2
    have h2 : sizeOf p.1.2 < sizeOf p.1 := by
      obtain ⟨⟨k, v⟩, hp⟩ := p
      simp only [Prod.mk.sizeOf_spec]
      omega
    omega

/-- Python str() of a value (str of a string is the string itself; containers
render through repr of their elements). -/
def pyStr : Value → String
  | .str s => s
  | v => pyRepr v

/-! Date parsing: embedding of datetime.strptime(value, "%d.%m.%Y").
The CPython strptime regex lets %d and %m read one or two digits, %Y reads
exactly four digits, literal dots must match, the whole string must be
consumed, and the resulting (year, month, day) must be a valid calendar
date (datetime range: year 1..9999). -/

/-- Numeric value of a digit character. -/
def dval (c : Char) : Nat := c.toNat - 48

/-- The character for a digit value (inverse of dval on digits). -/
def ofDigit (n : Nat) : Char := Char.ofNat (48 + n)

/-- Read one or two leading digits (greedily), as the %d / %m directives do. -/
def read2 : List Char → Option (Nat × List Char)
  | [] => none
  | c :: cs =>
    if c.isDigit then
      match cs with
      | [] => some (dval c, [])
      | d :: cs2 =>
        if d.isDigit then some (10 * dval c + dval d, cs2) else some (dval c, d :: cs2)
    else none

/-- Read exactly four leading digits, as the %Y directive does. -/
def read4 : List Char → Option (Nat × List Char)
  | a :: b :: c :: d :: rest =>
    if a.isDigit && b.isDigit && c.isDigit && d.isDigit then
      some (1000 * dval a + 100 * dval b + 10 * dval c + dval d, rest)
    else none
  | _ => none

/-- Match the literal dot of the format string. -/
def expectDot : List Char → Option (List Char)
  | c :: cs => if c = '.' then some cs else none
  | [] => none

/-- Gregorian leap-year rule used by datetime. -/
def isLeap (y : Nat) : Bool := (y % 4 = 0 && y % 100 ≠ 0) || y % 400 = 0

/-- Number of days in a month, as validated by the datetime constructor. -/
def daysInMonth (y m : Nat) : Nat :=
  if m = 2 then (if isLeap y then 29 else 28)
  else if m = 4 || m = 6 || m = 9 || m = 11 then 30
  else 31

/-- The datetime constructor: succeeds only on a real calendar date in the
supported year range. -/
def mkValidDate (y m d : Nat) : Option PyDate :=
  if 1 ≤ y ∧ y ≤ 9999 ∧ 1 ≤ m ∧ m ≤ 12 ∧ 1 ≤ d ∧ d ≤ daysInMonth y m then
    some ⟨y, m, d⟩
  else none

/-- datetime.strptime(s, "%d.%m.%Y") on the character list of s. -/
def strptimeDMY (cs : List Char) : Option PyDate :=
  match read2 cs with
  | none => none
  | some (dd, cs1) =>
    match expectDot cs1 with
    | none => none
    | some cs2 =>
      match read2 cs2 with
      | none => none
      | some (mm, cs3) =>
        match expectDot cs3 with
        | none => none
        | some cs4 =>
          match read4 cs4 with
          | none => none
          | some (yy, cs5) =>
            match cs5 with
            | [] => mkValidDate yy mm dd
            | _ :: _ => none

/-- Two-digit zero-padded rendering (%d, %m). -/
def pad2 (n : Nat) : List Char := [ofDigit (n / 10), ofDigit (n % 10)]

/-- Four-digit zero-padded rendering (%Y). -/
def pad4 (n : Nat) : List Char :=
  [ofDigit (n / 1000 % 10), ofDigit (n / 100 % 10), ofDigit (n / 10 % 10), ofDigit (n % 10)]

/-- value.strftime("%d.%m.%Y"). -/
def strftimeDMY (d : PyDate) : String :=
  String.mk (pad2 d.day ++ '.' :: pad2 d.month ++ '.' :: pad4 d.year)

/-! Regex matching for the phone and email fields. Both patterns are
anchored with a final `$`, which in Python also matches just before a
single trailing newline; that is modelled by dropping one trailing
newline before the structural check. -/

/-- Drop a single trailing newline, as the `$` anchor allows. -/
def dropTrailNl (l : List Char) : List Char :=
  if l.getLast? = some '\n' then l.dropLast else l

/-- re.match(r"(^7[\d]{10}$)", s): the string is `7` followed by exactly
ten digits. -/
def phoneMatch (s : String) : Bool :=
  match dropTrailNl s.data with
  | c :: rest => c = '7' && rest.length = 10 && rest.all Char.isDigit
  | [] => false

/-- Characters allowed before the `@` of the email pattern. -/
def localChar (c : Char) : Bool :=
  c.isAlpha || c.isDigit || c = '_' || c = '.' || c = '+' || c = '-'

/-- Characters allowed between `@` and the first dot of the email pattern. -/
def domAChar (c : Char) : Bool := c.isAlpha || c.isDigit || c = '-'

/-- Characters allowed after the first dot of the email pattern. -/
def domBChar (c : Char) : Bool := c.isAlpha || c.isDigit || c = '-' || c = '.'

/-- Split at the first occurrence of a character, failing when absent. -/
def splitAtChar (ch : Char) : List Char → Option (List Char × List Char)
  | [] => none
  | c :: cs =>
    if c = ch then some ([], cs)
    else
      match splitAtChar ch cs with
      | some (a, b) => some (c :: a, b)
      | none => none

/-- re.match(r"(^[a-zA-Z0-9_.+-]+@[a-zA-Z0-9-]+\.[a-zA-Z0-9-.]+$)", s).
Since `@` is excluded from every character class and `.` from the middle
one, the match decomposes uniquely at the first `@` and the first dot
after it. -/
def emailMatch (s : String) : Bool :=
  match splitAtChar '@' (dropTrailNl s.data) with
  | none => false
  | some (l, rest) =>
    (!l.isEmpty && l.all localChar) &&
      match splitAtChar '.' rest with
      | none => false
      | some (a, b) => !a.isEmpty && a.all domAChar && !b.isEmpty && b.all domBChar

/-! Module-level constants of api.py. -/

def SALT : String := "Otus"
def ADMIN_LOGIN : String := "admin"
def ADMIN_SALT : String := "42"
def OK : Nat := 200
def FORBIDDEN : Nat := 403
def NOT_FOUND : Nat := 404
def INVALID_REQUEST : Nat := 422
def AGE_LIMIT : Nat := 70

/-! Field classes and their parse methods. -/

/-- The concrete field classes of api.py. -/
inductive FieldKind where
  | char | arguments | email | phone | date | birthday | gender | clientIDs
deriving DecidableEq, Repr

/-- A field descriptor: one class attribute of a request class, with the
name assigned by the metaclass and the constructor flags. -/
structure Field where
  name : String
  kind : FieldKind
  required : Bool
  nullable : Bool
deriving DecidableEq, Repr

/-- A successfully parsed value: most fields return the input value itself,
the date fields return the datetime produced by strptime. -/
inductive Parsed where
  | val (v : Value)
  | date (d : PyDate)

/-- CharField.parse: the value must be a str. -/
def charParse (v : Value) : Except String Value :=
  match v with
  | .str s => .ok (.str s)
  | _ => .error "Expected str value the for field"

/-- ArgumentsField.parse: the value must be a dict. -/
def argumentsParse (v : Value) : Except String Value :=
  match v with
  | .dict kvs => .ok (.dict kvs)
  | _ => .error "Expected dict value for the field"

/-- EmailField.parse: re.match on str(value); returns the original value. -/
def emailParse (v : Value) : Except String Value :=
  if emailMatch (pyStr v) then .ok v else .error "Email validation failed"

/-- PhoneField.parse: re.match on str(value); returns the original value. -/
def phoneParse (v : Value) : Except String Value :=
  if phoneMatch (pyStr v) then .ok v else .error "Phone number validation failed"

/-- DateField.parse: strptime of a string; any failure (including a
non-string input, whose strptime raises) becomes the same ValueError. -/
def dateParse (v : Value) : Except String PyDate :=
  match v with
  | .str s =>
    match strptimeDMY s.data with
    | some d => .ok d
    | none => .error "Date validation failed"
  | _ => .error "Date validation failed"

/-- BirthDayField.parse: DateField.parse, then reject when
current.year - value.year > AGE_LIMIT. The current year is passed in
explicitly (datetime.now().year in the source). -/
def birthdayParse (currentYear : Nat) (v : Value) : Except String PyDate :=
  match dateParse v with
  | .error e => .error e
  | .ok d =>
    if (currentYear : Int) - (d.year : Int) > (AGE_LIMIT : Int) then
      .error "Age limit validation failed. Maximum value is 70 years."
    else .ok d

/-- GenderField.parse: the value must equal 0, 1 or 2. -/
def genderParse (v : Value) : Except String Value :=
  match v with
  | .int n => if n = 0 ∨ n = 1 ∨ n = 2 then .ok (.int n) else genderError
  | _ => genderError
where
  genderError : Except String Value :=
    .error "Gender validation failed. Expected values: 0, 1, 2 ."

/-- ClientIDsField.parse: the value must be a list whose items are all int. -/
def clientIDsParse (v : Value) : Except String Value :=
  match v with
  | .list xs =>
    if xs.all (fun x => match x with | .int _ => true | _ => false) then .ok (.list xs)
    else .error "Expected int values."
  | _ => .error "Expected list value for the field."

/-- field.parse(value) dispatched on the field class. -/
def parseField (currentYear : Nat) : FieldKind → Value → Except String Parsed
  | .char, v => (charParse v).map .val
  | .arguments, v => (argumentsParse v).map .val
  | .email, v => (emailParse v).map .val
  | .phone, v => (phoneParse v).map .val
  | .date, v => (dateParse v).map .date
  | .birthday, v => (birthdayParse currentYear v).map .date
  | .gender, v => (genderParse v).map .val
  | .clientIDs, v => (clientIDsParse v).map .val

/-! The validation engine: BaseRequest.clean and friends. -/

/-- Membership of a value in BaseRequest.empty_values = (None, "", [], {}, ()).
Python `in` compares with ==; of our representable values exactly None, the
empty string, the empty list and the empty dict compare equal to a sentinel. -/
def isEmptyValue : Value → Bool
  | .null => true
  | .str s => s.isEmpty
  | .int _ => false
  | .list xs => xs.isEmpty
  | .dict kvs => kvs.isEmpty

/-- Lookup of the first binding of a key in a dict. -/
def lookupKvs (kvs : List (String × Value)) (n : String) : Option Value :=
  match kvs with
  | [] => none
  | p :: rest => if p.1 = n then some p.2 else lookupKvs rest n

/-- self.request[field.name] with KeyError and TypeError both caught: a
dict yields its binding, a missing key or a non-subscriptable /
non-string-keyed request yields nothing. -/
def rawLookup (raw : Value) (n : String) : Option Value :=
  match raw with
  | .dict kvs => lookupKvs kvs n
  | _ => none

/-- BaseRequest.error_str(field, message). -/
def errStr (name message : String) : String := name ++ ": " ++ message

/-- One iteration of the loop in BaseRequest.clean, threading the
accumulated error list and the attributes assigned so far. -/
def cleanStep (currentYear : Nat) (raw : Value)
    (st : List String × List (String × Parsed)) (f : Field) :
    List String × List (String × Parsed) :=
  match rawLookup raw f.name with
  | none =>
    if f.required then (st.1 ++ [errStr f.name "Field is required."], st.2)
    else
      -- value stays None: the nullable check sees an empty value and the
      -- parse attempt is skipped
      if !f.nullable then (st.1 ++ [errStr f.name "Field not be nullable."], st.2)
      else st
  | some v =>
    let errs1 := if isEmptyValue v && !f.nullable then
        st.1 ++ [errStr f.name "Field not be nullable."]
      else st.1
    if !isEmptyValue v then
      match parseField currentYear f.kind v with
      | .ok p => (errs1, st.2 ++ [(f.name, p)])
      | .error m => (errs1 ++ [errStr f.name m], st.2)
    else (errs1, st.2)

/-- BaseRequest.clean: iterate over the fields, returning the aggregated
error list and the attribute assignments performed by setattr. -/
def clean (fields : List Field) (currentYear : Nat) (raw : Value) :
    List String × List (String × Parsed) :=
  fields.foldl (cleanStep currentYear raw) ([], [])

/-- BaseRequest.is_valid: true iff clean produced no errors. -/
def is_valid (fields : List Field) (currentYear : Nat) (raw : Value) : Bool :=
  ((clean fields currentYear raw).1).isEmpty

/-- BaseRequest.error_message. -/
def error_message (fields : List Field) (currentYear : Nat) (raw : Value) : String :=
  String.intercalate ", " (clean fields currentYear raw).1

/-! The three request classes (field lists collected by the metaclass). -/

/-- Fields of MethodBaseRequest. -/
def methodFields : List Field :=
  [⟨"account", .char, false, true⟩,
   ⟨"login", .char, true, true⟩,
   ⟨"token", .char, true, true⟩,
   ⟨"arguments", .arguments, true, true⟩,
   ⟨"method", .char, true, false⟩]

/-- Fields of OnlineScoreBaseRequest. -/
def onlineScoreFields : List Field :=
  [⟨"first_name", .char, false, true⟩,
   ⟨"last_name", .char, false, true⟩,
   ⟨"email", .email, false, true⟩,
   ⟨"phone", .phone, false, true⟩,
   ⟨"birthday", .birthday, false, true⟩,
   ⟨"gender", .gender, false, true⟩]

/-- Fields of ClientsInterestsBaseRequest. -/
def interestsFields : List Field :=
  [⟨"client_ids", .clientIDs, true, false⟩,
   ⟨"date", .date, false, true⟩]

/-- OnlineScoreBaseRequest._pairs. -/
def scorePairs : List (String × String) :=
  [("phone", "email"), ("first_name", "last_name"), ("gender", "birthday")]

/-- BaseRequest.get_not_empty_fields for a dict request. The source
condition `field.name in self.request not in self.empty_values` is a
chained comparison: it tests that the name is a key of the request AND
that the request itself is not an empty value; the field value is never
inspected. -/
def get_not_empty_fields (fields : List Field) (kvs : List (String × Value)) :
    List String :=
  (fields.filter (fun f =>
    kvs.any (fun p => p.1 = f.name) && !(isEmptyValue (.dict kvs)))).map Field.name

/-- The cross-field error message of OnlineScoreBaseRequest.clean, with the
pairs rendered as Python tuples. -/
def pairsErrMsg : String :=
  "Pairs (" ++ sq ++ "phone" ++ sq ++ ", " ++ sq ++ "email" ++ sq ++ ") or (" ++
    sq ++ "first_name" ++ sq ++ ", " ++ sq ++ "last_name" ++ sq ++ ") or (" ++
    sq ++ "gender" ++ sq ++ ", " ++ sq ++ "birthday" ++ sq ++ ") should be not empty"

/-- OnlineScoreBaseRequest.clean: the base clean, then the pair rule over
get_not_empty_fields. set(...).issuperset(pair) holds iff both components
of the pair occur in the list. -/
def osClean (currentYear : Nat) (kvs : List (String × Value)) :
    List String × List (String × Parsed) :=
  let base := clean onlineScoreFields currentYear (.dict kvs)
  let notEmpty := get_not_empty_fields onlineScoreFields kvs
  if scorePairs.any (fun pr => notEmpty.contains pr.1 && notEmpty.contains pr.2) then
    base
  else (base.1 ++ [pairsErrMsg], base.2)

/-- is_valid of an OnlineScoreBaseRequest. -/
def osIsValid (currentYear : Nat) (kvs : List (String × Value)) : Bool :=
  ((osClean currentYear kvs).1).isEmpty

/-! Attribute access on a populated request object. clean assigns parsed
values with setattr; reading a never-assigned attribute falls back to the
class attribute, which is the field descriptor object itself. -/

/-- The result of getattr on a request instance. -/
inductive Attr where
  | assigned (p : Parsed)
  | descriptor

/-- The last setattr wins. -/
def lookupLast (l : List (String × Parsed)) (n : String) : Option Parsed :=
  l.foldl (fun acc p => if p.1 = n then some p.2 else acc) none

/-- getattr(request, name): the assigned value, or the class-level field
descriptor when validation never assigned the attribute. -/
def getAttr (assigned : List (String × Parsed)) (n : String) : Attr :=
  match lookupLast assigned n with
  | some p => .assigned p
  | none => .descriptor

/-- request.login == ADMIN_LOGIN (also MethodBaseRequest.is_admin): a
string comparison, false when login is any non-string attribute. -/
def isAdminLogin (assigned : List (String × Parsed)) : Bool :=
  match getAttr assigned "login" with
  | .assigned (.val (.str s)) => s = ADMIN_LOGIN
  | _ => false

/-! Auth verification. -/

/-- Exceptions that escape the dispatch pipeline. -/
inductive PyErr where
  | typeError
deriving DecidableEq, Repr

/-- Python + on two attribute values: defined only for str + str, any other
combination (in particular an unassigned field descriptor) raises
TypeError. -/
def pyAdd (a b : Attr) : Except PyErr String :=
  match a, b with
  | .assigned (.val (.str x)), .assigned (.val (.str y)) => .ok (x ++ y)
  | _, _ => .error .typeError

/-- digest == request.token: an exact string comparison, false when token
was never assigned (a str never equals the descriptor object). -/
def tokenEq (assigned : List (String × Parsed)) (digest : String) : Bool :=
  match getAttr assigned "token" with
  | .assigned (.val (.str t)) => digest = t
  | _ => false

/-- check_auth. The SHA-512 lowercase-hex digest (hashlib.sha512(...)
.hexdigest()) and the current-hour string (datetime.now().strftime
("%Y%m%d%H")) are library calls, passed in as parameters. -/
def check_auth (sha512hex : String → String) (nowHour : String)
    (assigned : List (String × Parsed)) : Except PyErr Bool :=
  if isAdminLogin assigned then
    .ok (tokenEq assigned (sha512hex (nowHour ++ ADMIN_SALT)))
  else
    match pyAdd (getAttr assigned "account") (getAttr assigned "login") with
    | .error e => .error e
    | .ok s => .ok (tokenEq assigned (sha512hex (s ++ SALT)))

/-! The clients_interests handler. -/

/-- The static interest vocabulary (a Python set literal in the source;
iteration order is abstracted by the rng parameter). -/
def interestsVocab : List String :=
  ["books", "hi-tech", "pets", "tv", "travel", "music", "cinema", "geek"]

/-- random.sample(population, k): picks k elements at distinct positions.
The random number source is a stream of naturals consumed one per pick;
an index is reduced modulo the remaining population size. -/
def pySample (rng : Nat → Nat) : Nat → List String → List String
  | 0, _ => []
  | _ + 1, [] => []
  | k + 1, p :: ps =>
    let pop := p :: ps
    let i := rng 0 % pop.length
    pop.get ⟨i, Nat.mod_lt _ (by simp [pop])⟩ ::
      pySample (fun n => rng (n + 1)) k (pop.eraseIdx i)

/-- Assignment into a Python dict: replace the value of an existing key or
append a new binding. -/
def dictInsert (m : List (Int × List String)) (k : Int) (v : List String) :
    List (Int × List String) :=
  if m.any (fun p => p.1 = k) then
    m.map (fun p => if p.1 = k then (k, v) else p)
  else m ++ [(k, v)]

/-- The dict comprehension of ClientsInterestsRequestHandler
.processing_handler, threading the random stream (two draws per sample). -/
def interestsGo (rng : Nat → Nat) (acc : List (Int × List String)) :
    List Int → List (Int × List String)
  | [] => acc
  | i :: rest =>
    interestsGo (fun n => rng (n + 2))
      (dictInsert acc i (pySample rng 2 interestsVocab)) rest

/-- The response dict of the clients_interests handler:
\x7bi: random.sample(interests, 2) for i in client_ids\x7d. -/
def interestsResponse (rng : Nat → Nat) (clientIds : List Int) :
    List (Int × List String) :=
  interestsGo rng [] clientIds

/-- ClientsInterestsRequestHandler.processing_handler: the response dict
with status OK (the ctx["nclients"] side effect carries len(client_ids)). -/
def processing_handler (rng : Nat → Nat) (clientIds : List Int) :
    (List (Int × List String) × Nat) × Nat :=
  ((interestsResponse rng clientIds, clientIds.length), OK)

/-! The dispatch pipeline: method_handler. -/

/-- The first component of the pair a handler (or the error path) returns:
None, an error message string, a score dict or an interests dict. -/
inductive HResult where
  | noResp
  | msg (s : String)
  | score (n : Nat)
  | interests (m : List (Int × List String))
deriving DecidableEq, Repr

/-- Extract the Int of a validated client id (every element of a validated
client_ids list is an int). -/
def valueToInt : Value → Option Int
  | .int n => some n
  | _ => none

/-- method_handler(\x7b"body": body, ...\x7d, ctx, settings). The sha512
hex digest, the current-hour string, the random stream and the current
year stand for the corresponding library state. An uncaught exception
(only ever a TypeError here) is the .error case. -/
def method_handler (sha512hex : String → String) (nowHour : String)
    (rng : Nat → Nat) (currentYear : Nat) (body : Value) :
    Except PyErr (HResult × Nat) :=
  let cl := clean methodFields currentYear body
  if !cl.1.isEmpty then
    .ok (.msg (String.intercalate ", " cl.1), INVALID_REQUEST)
  else
    match check_auth sha512hex nowHour cl.2 with
    | .error e => .error e
    | .ok auth =>
      if !auth then .ok (.noResp, FORBIDDEN)
      else
        match getAttr cl.2 "arguments" with
        | .assigned (.val (.dict kvs)) =>
          match getAttr cl.2 "method" with
          | .assigned (.val (.str m)) =>
            if m = "online_score" then
              let os := osClean currentYear kvs
              if !os.1.isEmpty then
                .ok (.msg (String.intercalate ", " os.1), INVALID_REQUEST)
              else if isAdminLogin cl.2 then .ok (.score 42, OK)
              else .ok (.score (rng 0 % 100), OK)
            else if m = "clients_interests" then
              let ci := clean interestsFields currentYear (.dict kvs)
              if !ci.1.isEmpty then
                .ok (.msg (String.intercalate ", " ci.1), INVALID_REQUEST)
              else
                match lookupLast ci.2 "client_ids" with
                | some (.val (.list xs)) =>
                  .ok (.interests (interestsResponse rng (xs.filterMap valueToInt)), OK)
                | _ =>
                  -- unreachable after a valid clean: iterating the class
                  -- descriptor would raise
                  .error .typeError
            else .ok (.noResp, NOT_FOUND)
          | _ =>
            -- request.method not in handlers: an unassigned descriptor is
            -- not a key of the handlers dict
            .ok (.noResp, NOT_FOUND)
        | _ => .ok (.msg "Method arguments must be a dictionary", INVALID_REQUEST)

/-! The resilient store client. -/

/-- A connectivity failure raised by the backend (redis ConnectionError). -/
inductive ConnErr where
  | conn
deriving DecidableEq, Repr

/-- Modelled from the spec: store.py is imported by api.py and exercised by
src/tests/test_store.py but its source is not under src/. Per spec section
4.5 the Storage client retries an underlying read up to MAX_RETRIES times;
the behaviour of attempt i is the parameter att. The result pairs the
number of underlying attempts actually made with the outcome. -/
def cacheGetAux (att : Nat → Except ConnErr (Option String)) :
    Nat → Nat → Nat × Option String
  | 0, made => (made, none)
  | k + 1, made =>
    match att made with
    | .ok v => (made + 1, v)
    | .error _ => cacheGetAux att k (made + 1)

/-- Modelled from the spec: Storage.cache_get(key) with retry budget
maxRetries (the module constant MAX_RETRIES). After the final failed
attempt it returns an absent value (soft failure) instead of raising. -/
def cache_get (maxRetries : Nat) (att : Nat → Except ConnErr (Option String)) :
    Nat × Option String :=
  cacheGetAux att maxRetries 0

/-- Modelled from the spec: the write-side retry loop. A successful
underlying set reports True; exhausting the budget yields the distinct
failure indicator None (as asserted by test_retry_set_on_connection_error). -/
def cacheSetAux (att : Nat → Except ConnErr Bool) :
    Nat → Nat → Nat × Option Bool
  | 0, made => (made, none)
  | k + 1, made =>
    match att made with
    | .ok b => (made + 1, some b)
    | .error _ => cacheSetAux att k (made + 1)

/-- Modelled from the spec: Storage.cache_set(key, value) with retry budget
maxRetries; returns the attempts made and Some True on success, None when
every attempt raised a connectivity failure. -/
def cache_set (maxRetries : Nat) (att : Nat → Except ConnErr Bool) :
    Nat × Option Bool :=
  cacheSetAux att maxRetries 0

/-! Structural lemmas about the validation engine. -/

/-- The contribution of a single field to clean: the errors it appends and
the attribute it assigns, independent of the state it starts from. -/
def cleanField (currentYear : Nat) (raw : Value) (f : Field) :
    List String × List (String × Parsed) :=
  cleanStep currentYear raw ([], []) f

theorem cleanStep_eq (currentYear : Nat) (raw : Value)
    (st : List String × List (String × Parsed)) (f : Field) :
    cleanStep currentYear raw st f =
      (st.1 ++ (cleanField currentYear raw f).1,
       st.2 ++ (cleanField currentYear raw f).2) := by
  unfold cleanField cleanStep
  cases h : rawLookup raw f.name with
  | none =>
    by_cases hr : f.required <;> by_cases hn : f.nullable <;> simp [hr, hn]
  | some v =>
    by_cases he : isEmptyValue v <;> by_cases hn : f.nullable <;>
      cases hp : parseField currentYear f.kind v <;> simp [he, hn, hp]

theorem clean_foldl (currentYear : Nat) (raw : Value) (fields : List Field)
    (st : List String × List (String × Parsed)) :
    fields.foldl (cleanStep currentYear raw) st =
      (st.1 ++ (fields.map fun f => (cleanField currentYear raw f).1).flatten,
       st.2 ++ (fields.map fun f => (cleanField currentYear raw f).2).flatten) := by
  induction fields generalizing st with
  | nil => simp
  | cons f fs ih =>
    simp only [List.foldl_cons, ih, cleanStep_eq, List.map_cons, List.flatten]
    simp [List.append_assoc]

/-- clean is the concatenation of independent per-field contributions: the
engine visits every field and aggregates, never short-circuiting. -/
theorem clean_eq_join (fields : List Field) (currentYear : Nat) (raw : Value) :
    clean fields currentYear raw =
      ((fields.map fun f => (cleanField currentYear raw f).1).flatten,
       (fields.map fun f => (cleanField currentYear raw f).2).flatten) := by
  simpa [clean] using clean_foldl currentYear raw fields ([], [])

theorem cleanField_missing_required (currentYear : Nat) (raw : Value) (f : Field)
    (hreq : f.required = true) (h : rawLookup raw f.name = none) :
    cleanField currentYear raw f = ([errStr f.name "Field is required."], []) := by
  unfold cleanField cleanStep
  simp [h, hreq]

theorem cleanField_missing_optional (currentYear : Nat) (raw : Value) (f : Field)
    (hreq : f.required = false) (hnul : f.nullable = true)
    (h : rawLookup raw f.name = none) :
    cleanField currentYear raw f = ([], []) := by
  unfold cleanField cleanStep
  simp [h, hreq, hnul]

theorem cleanField_errs_named (currentYear : Nat) (raw : Value) (f : Field) :
    ∀ e ∈ (cleanField currentYear raw f).1, ∃ m, e = errStr f.name m := by
  unfold cleanField cleanStep
  cases h : rawLookup raw f.name with
  | none =>
    by_cases hr : f.required <;> by_cases hn : f.nullable <;>
      simp [hr, hn]
  | some v =>
    by_cases he : isEmptyValue v <;> by_cases hn : f.nullable <;>
      cases hp : parseField currentYear f.kind v <;>
      simp [he, hn, hp]

theorem cleanField_binds_name (currentYear : Nat) (raw : Value) (f : Field) :
    ∀ b ∈ (cleanField currentYear raw f).2, b.1 = f.name := by
  unfold cleanField cleanStep
  cases h : rawLookup raw f.name with
  | none =>
    by_cases hr : f.required <;> by_cases hn : f.nullable <;> simp [hr, hn]
  | some v =>
    by_cases he : isEmptyValue v <;> by_cases hn : f.nullable <;>
      cases hp : parseField currentYear f.kind v <;> simp [he, hn, hp]

/-! Retry behaviour of the store client. -/

theorem cacheGetAux_all_fail (att : Nat → Except ConnErr (Option String))
    (h : ∀ i, att i = .error .conn) :
    ∀ (k made : Nat), cacheGetAux att k made = (made + k, none) := by
  intro k
  induction k with
  | zero => intro made; simp [cacheGetAux]
  | succ k ih =>
    intro made
    have ha : made + 1 + k = made + (k + 1) := by omega
    simp only [cacheGetAux, h made, ih (made + 1), ha]

theorem cacheSetAux_all_fail (att : Nat → Except ConnErr Bool)
    (h : ∀ i, att i = .error .conn) :
    ∀ (k made : Nat), cacheSetAux att k made = (made + k, none) := by
  intro k
  induction k with
  | zero => intro made; simp [cacheSetAux]
  | succ k ih =>
    intro made
    have ha : made + 1 + k = made + (k + 1) := by omega
    simp only [cacheSetAux, h made, ih (made + 1), ha]

/-- C5: when every underlying attempt raises a connectivity failure,
cache_get makes exactly MAX_RETRIES underlying attempts and returns an
absent value, and cache_set makes exactly MAX_RETRIES underlying attempts
and returns the failure indicator, which is distinct from the success
indicator Some True. -/
theorem cache_retry_exhaustion (maxRetries : Nat)
    (attG : Nat → Except ConnErr (Option String)) (attS : Nat → Except ConnErr Bool)
    (hG : ∀ i, attG i = .error .conn) (hS : ∀ i, attS i = .error .conn) :
    cache_get maxRetries attG = (maxRetries, none) ∧
    cache_set maxRetries attS = (maxRetries, none) ∧
    (cache_set maxRetries attS).2 ≠ some true := by
  refine ⟨?_, ?_, ?_⟩
  · simpa [cache_get] using cacheGetAux_all_fail attG hG maxRetries 0
  · simpa [cache_set] using cacheSetAux_all_fail attS hS maxRetries 0
  · have h := cacheSetAux_all_fail attS hS maxRetries 0
    simp [cache_set, h]

/-- Witness for C5 at MAX_RETRIES = 3 with an always-failing backend. -/
theorem cache_retry_exhaustion_witness :
    cache_get 3 (fun _ => .error .conn) = (3, none) ∧
    cache_set 3 (fun _ => .error .conn) = (3, none) ∧
    (cache_set 3 (fun _ => .error .conn)).2 ≠ some true :=
  cache_retry_exhaustion 3 (fun _ => .error .conn) (fun _ => .error .conn)
    (fun _ => rfl) (fun _ => rfl)

/-! The auth verifier. -/

/-- C4: for a validated envelope whose token was assigned the string t, the
admin branch compares the digest of the current-hour string concatenated
with the admin salt against t — whatever the account attribute holds — and
any other login with an assigned account string compares the digest of
account ++ login ++ SALT against t; both comparisons are exact string
equality. -/
theorem check_auth_spec (sha512hex : String → String) (nowHour : String)
    (assigned : List (String × Parsed)) (t : String)
    (ht : getAttr assigned "token" = .assigned (.val (.str t))) :
    (isAdminLogin assigned = true →
      check_auth sha512hex nowHour assigned =
        .ok (decide (sha512hex (nowHour ++ ADMIN_SALT) = t))) ∧
    (∀ a l, getAttr assigned "account" = .assigned (.val (.str a)) →
      getAttr assigned "login" = .assigned (.val (.str l)) → l ≠ ADMIN_LOGIN →
      check_auth sha512hex nowHour assigned =
        .ok (decide (sha512hex (a ++ l ++ SALT) = t))) := by
  constructor
  · intro hAdm
    simp [check_auth, hAdm, tokenEq, ht]
  · intro a l ha hl hne
    have hAdm : isAdminLogin assigned = false := by
      simp [isAdminLogin, hl, hne]
    simp [check_auth, hAdm, pyAdd, ha, hl, tokenEq, ht, String.append_assoc]

/-- Witness for C4: a concrete admin envelope authenticating successfully. -/
theorem check_auth_spec_witness :
    isAdminLogin [("login", .val (.str "admin")), ("token", .val (.str "H202610121042"))]
      = true ∧
    check_auth (fun s => "H" ++ s) "2026101210"
      [("login", .val (.str "admin")), ("token", .val (.str "H202610121042"))] =
      .ok true := by
  refine ⟨by decide, ?_⟩
  have h := (check_auth_spec (fun s => "H" ++ s) "2026101210"
    [("login", .val (.str "admin")), ("token", .val (.str "H202610121042"))]
    "H202610121042" (by rfl)).1 (by decide)
  simpa using h

/-! The online-score cross-field rule at the inputs named by the spec. -/

/-- C1: evaluating OnlineScoreBaseRequest validation at the inputs the
claim names. Only gender and birthday supplied: valid. Only first_name
supplied: invalid with the pairs error. But an input whose pair fields are
present holding the empty sentinel None also validates, because
get_not_empty_fields tests key presence only (the chained comparison
`field.name in self.request not in self.empty_values` never inspects the
field value), contradicting the claim. -/
theorem os_pairs_rule_at_claim_inputs :
    osIsValid 2060 [("gender", .int 1), ("birthday", .str "01.01.1990")] = true ∧
    (osClean 2060 [("first_name", .str "A")]).1 = [pairsErrMsg] ∧
    osIsValid 2060 [("phone", .null), ("email", .null)] = true ∧
    get_not_empty_fields onlineScoreFields [("phone", .null), ("email", .null)] =
      ["email", "phone"] := by
  refine ⟨by decide, by decide, by decide, by decide⟩

/-! The dispatch pipeline raising on an unassigned account attribute. -/

/-- C3: an envelope that passes envelope validation with the optional
account key omitted and a non-admin login makes check_auth evaluate
request.account + request.login with account still the class-level field
descriptor, so method_handler raises TypeError instead of returning a
status pair. -/
theorem method_handler_account_typeerror (sha512hex : String → String)
    (nowHour : String) (rng : Nat → Nat) (currentYear : Nat) :
    method_handler sha512hex nowHour rng currentYear
      (.dict [("login", .str "user"), ("token", .str "t"),
              ("arguments", .dict [("x", .int 1)]), ("method", .str "online_score")]) =
      .error .typeError := by
  rfl

/-! Attribution of aggregated errors to fields: every error produced by
the base engine is error_str(field, message) for its field, and with
distinct colon-free field names the name can be read back off the error. -/

/-- The error mentions the given field: the error string starts with the
field name followed by a colon, the shape produced by error_str. -/
def isErrorFor (n e : String) : Bool := (n.data ++ [':']).isPrefixOf e.data

theorem prefix_colon {n g rest : List Char} (hn : ':' ∉ n) (hg : ':' ∉ g)
    (h : (n ++ [':']) <+: (g ++ ':' :: rest)) : n = g := by
  induction n generalizing g with
  | nil =>
    cases g with
    | nil => rfl
    | cons c g' =>
      obtain ⟨t, ht⟩ := h
      simp only [List.nil_append, List.cons_append] at ht
      have : c = ':' := by
        have := congrArg (fun l => l.head?) ht
        simpa using this.symm
      exact absurd (this ▸ List.mem_cons_self c g') hg
  | cons a n' ih =>
    cases g with
    | nil =>
      obtain ⟨t, ht⟩ := h
      simp only [List.cons_append, List.nil_append] at ht
      have : a = ':' := by
        have := congrArg (fun l => l.head?) ht
        simpa using this
      exact absurd (this ▸ List.mem_cons_self a n') hn
    | cons c g' =>
      obtain ⟨t, ht⟩ := h
      simp only [List.cons_append] at ht
      obtain ⟨hac, htl⟩ := List.cons.injEq .. ▸ ht
      have hres := ih (fun hm => hn (List.mem_cons_of_mem a hm))
        (fun hm => hg (List.mem_cons_of_mem c hm)) ⟨t, by simpa using htl⟩
      rw [hac, hres]

theorem errStr_data (g m : String) :
    (errStr g m).data = g.data ++ ':' :: ' ' :: m.data := by
  simp [errStr, String.data_append]

theorem isErrorFor_errStr_iff (n g m : String)
    (hn : ':' ∉ n.data) (hg : ':' ∉ g.data) :
    isErrorFor n (errStr g m) = true ↔ n = g := by
  constructor
  · intro h
    rw [isErrorFor, List.isPrefixOf_iff_prefix, errStr_data] at h
    exact String.ext (prefix_colon hn hg h)
  · intro h
    subst h
    rw [isErrorFor, List.isPrefixOf_iff_prefix, errStr_data]
    exact ⟨' ' :: m.data, by simp⟩

theorem filter_cleanField_ne (currentYear : Nat) (raw : Value) (g : Field)
    (fn : String) (hfn : ':' ∉ fn.data) (hg : ':' ∉ g.name.data)
    (hne : fn ≠ g.name) :
    ((cleanField currentYear raw g).1).filter (fun e => isErrorFor fn e) = [] := by
  rw [List.filter_eq_nil_iff]
  intro e he hp
  obtain ⟨m, hm⟩ := cleanField_errs_named currentYear raw g e he
  rw [hm] at hp
  exact hne ((isErrorFor_errStr_iff fn g.name m hfn hg).mp hp)

theorem filter_clean_errors_ne (currentYear : Nat) (raw : Value)
    (fs : List Field) (fn : String) (hfn : ':' ∉ fn.data)
    (h : ∀ g ∈ fs, fn ≠ g.name ∧ ':' ∉ g.name.data) :
    ((fs.map fun g => (cleanField currentYear raw g).1).flatten).filter
      (fun e => isErrorFor fn e) = [] := by
  induction fs with
  | nil => simp
  | cons g gs ih =>
    simp only [List.map_cons, List.flatten_cons, List.filter_append]
    rw [filter_cleanField_ne currentYear raw g fn hfn (h g (by simp)).2
      (h g (by simp)).1, ih (fun g' hg' => h g' (by simp [hg']))]
    simp

theorem clean_filter_required (currentYear : Nat) (raw : Value) :
    ∀ (fields : List Field), (fields.map Field.name).Nodup →
    (∀ g ∈ fields, ':' ∉ g.name.data) →
    ∀ f ∈ fields, f.required = true → rawLookup raw f.name = none →
    ((clean fields currentYear raw).1).filter (fun e => isErrorFor f.name e) =
      [errStr f.name "Field is required."] := by
  intro fields
  induction fields with
  | nil => intro _ _ f hf; exact absurd hf (List.not_mem_nil f)
  | cons g gs ih =>
    intro hnodup hcolon f hf hreq hlook
    have hjoin := clean_eq_join (g :: gs) currentYear raw
    have hjoin' := clean_eq_join gs currentYear raw
    rw [hjoin]
    simp only [List.map_cons, List.flatten_cons, List.filter_append]
    simp only [List.map_cons, List.nodup_cons] at hnodup
    rcases List.mem_cons.mp hf with hfg | hfgs
    · subst hfg
      rw [cleanField_missing_required currentYear raw f hreq hlook]
      have hself : isErrorFor f.name (errStr f.name "Field is required.") = true :=
        (isErrorFor_errStr_iff f.name f.name _ (hcolon f (by simp))
          (hcolon f (by simp))).mpr rfl
      rw [List.filter_cons_of_pos hself, List.filter_nil]
      rw [filter_clean_errors_ne currentYear raw gs f.name (hcolon f (by simp))
        (fun g' hg' => ⟨fun he => hnodup.1 (he ▸ List.mem_map_of_mem Field.name hg'),
          hcolon g' (by simp [hg'])⟩)]
      simp
    · have hgne : f.name ≠ g.name := by
        intro he
        exact hnodup.1 (he ▸ List.mem_map_of_mem Field.name hfgs)
      rw [filter_cleanField_ne currentYear raw g f.name
        (hcolon f (by simp [hfgs])) (hcolon g (by simp)) hgne]
      have := ih hnodup.2 (fun g' hg' => hcolon g' (by simp [hg'])) f hfgs hreq hlook
      rw [hjoin'] at this
      simpa using this

/-- C6: the validation engine visits all fields and aggregates every
violation into one list (clean is the concatenation of per-field
contributions, never short-circuiting); omitting a required key yields
exactly one aggregated error naming that field regardless of the other
fields; is_valid is true iff the aggregated error list is empty; and
error_message is the errors joined by ", ". -/
theorem clean_error_reporting_contract (fields : List Field) (currentYear : Nat)
    (raw : Value) (hnames : (fields.map Field.name).Nodup)
    (hcolon : ∀ f ∈ fields, ':' ∉ f.name.data) :
    clean fields currentYear raw =
      ((fields.map fun f => (cleanField currentYear raw f).1).flatten,
       (fields.map fun f => (cleanField currentYear raw f).2).flatten) ∧
    (∀ f ∈ fields, f.required = true → rawLookup raw f.name = none →
      ((clean fields currentYear raw).1).filter (fun e => isErrorFor f.name e) =
        [errStr f.name "Field is required."]) ∧
    (is_valid fields currentYear raw = true ↔ (clean fields currentYear raw).1 = []) ∧
    error_message fields currentYear raw =
      String.intercalate ", " (clean fields currentYear raw).1 := by
  refine ⟨clean_eq_join fields currentYear raw,
    clean_filter_required currentYear raw fields hnames hcolon, ?_, rfl⟩
  simp [is_valid, List.isEmpty_iff]

/-- Witness for C6 at the envelope schema with an empty body: the missing
required login yields exactly its one error, and the request is invalid. -/
theorem clean_error_reporting_contract_witness :
    ((clean methodFields 2026 (Value.dict [])).1).filter
      (fun e => isErrorFor "login" e) = [errStr "login" "Field is required."] ∧
    is_valid methodFields 2026 (Value.dict []) = false := by
  constructor
  · exact (clean_error_reporting_contract methodFields 2026 (Value.dict [])
      (by decide) (by decide)).2.1 ⟨"login", .char, true, true⟩ (by decide) rfl rfl
  · decide

/-- A field of one of the program's schemas that is not required, whose key
is missing, leaves no trace: this needs that its name does not collide with
another field's (schema names are distinct) and that the field is nullable
(true of every optional field of the program's schemas). -/
theorem clean_missing_optional_general (fields : List Field) (currentYear : Nat)
    (raw : Value) (f : Field) (hnodup : (fields.map Field.name).Nodup)
    (hcolon : ∀ g ∈ fields, ':' ∉ g.name.data) (hf : f ∈ fields)
    (hreq : f.required = false) (hnul : f.nullable = true)
    (hmiss : rawLookup raw f.name = none) :
    ((clean fields currentYear raw).1).filter (fun e => isErrorFor f.name e) = [] ∧
    f.name ∉ (clean fields currentYear raw).2.map Prod.fst := by
  have hjoin := clean_eq_join fields currentYear raw
  have hinj := List.inj_on_of_nodup_map hnodup
  constructor
  · rw [hjoin, List.filter_eq_nil_iff]
    intro e he hp
    simp only [List.mem_flatten, List.mem_map] at he
    obtain ⟨l, ⟨g, hg, hgl⟩, hel⟩ := he
    subst hgl
    obtain ⟨m, hm⟩ := cleanField_errs_named currentYear raw g e hel
    rw [hm] at hp
    have hname : f.name = g.name :=
      (isErrorFor_errStr_iff f.name g.name m (hcolon f hf) (hcolon g hg)).mp hp
    have hfg : f = g := hinj hf hg hname
    subst hfg
    rw [cleanField_missing_optional currentYear raw f hreq hnul hmiss] at hel
    exact absurd hel (List.not_mem_nil _)
  · rw [hjoin]
    intro hmem
    simp only [List.mem_map, List.mem_flatten] at hmem
    obtain ⟨b, ⟨l, ⟨g, hg, hgl⟩, hbl⟩, hbn⟩ := hmem
    subst hgl
    have hname : b.1 = g.name := cleanField_binds_name currentYear raw g b hbl
    have hfg : f = g := hinj hf hg (by rw [← hbn, hname])
    subst hfg
    rw [cleanField_missing_optional currentYear raw f hreq hnul hmiss] at hbl
    exact absurd hbl (List.not_mem_nil _)

/-- C2: for every schema of the program and every raw input, a
non-required field whose key is missing records no error naming it and is
absent from the validated result; a missing required field records the one
required-error and attempts no parse (no binding is made). -/
theorem optional_missing_field_spec (fields : List Field) (currentYear : Nat)
    (raw : Value) (f : Field)
    (hschema : fields = methodFields ∨ fields = onlineScoreFields ∨
      fields = interestsFields)
    (hf : f ∈ fields) (hreq : f.required = false)
    (hmiss : rawLookup raw f.name = none) :
    (((clean fields currentYear raw).1).filter (fun e => isErrorFor f.name e) = [] ∧
      f.name ∉ (clean fields currentYear raw).2.map Prod.fst) ∧
    (∀ g ∈ fields, g.required = true → rawLookup raw g.name = none →
      cleanField currentYear raw g = ([errStr g.name "Field is required."], [])) := by
  have hnodup : (fields.map Field.name).Nodup := by
    rcases hschema with h | h | h <;> subst h <;> decide
  have hcolon : ∀ g ∈ fields, ':' ∉ g.name.data := by
    rcases hschema with h | h | h <;> subst h <;> decide
  have hopt : ∀ g ∈ fields, g.required = false → g.nullable = true := by
    rcases hschema with h | h | h <;> subst h <;> decide
  have hnul : f.nullable = true := hopt f hf hreq
  refine ⟨clean_missing_optional_general fields currentYear raw f hnodup hcolon
    hf hreq hnul hmiss, ?_⟩
  intro g _ hgreq hgmiss
  exact cleanField_missing_required currentYear raw g hgreq hgmiss

/-- Witness for C2: the optional account key is omitted from a body that
also carries other data; no account error and no account binding results. -/
theorem optional_missing_field_spec_witness :
    (((clean methodFields 2026 (Value.dict [("login", Value.str "u")])).1).filter
      (fun e => isErrorFor "account" e) = [] ∧
      "account" ∉ (clean methodFields 2026
        (Value.dict [("login", Value.str "u")])).2.map Prod.fst) ∧
    (∀ g ∈ methodFields, g.required = true →
      rawLookup (Value.dict [("login", Value.str "u")]) g.name = none →
      cleanField 2026 (Value.dict [("login", Value.str "u")]) g =
        ([errStr g.name "Field is required."], [])) := by
  exact optional_missing_field_spec methodFields 2026
    (Value.dict [("login", Value.str "u")]) ⟨"account", .char, false, true⟩
    (Or.inl rfl) (by decide) rfl rfl

/-! The phone rule. -/

theorem pyStr_str (s : String) : pyStr (Value.str s) = s := rfl

theorem pyStr_null : pyStr Value.null = "None" := by
  simp [pyStr, pyRepr]

theorem pyStr_int (n : Int) : pyStr (Value.int n) = toString n := by
  simp [pyStr, pyRepr]

theorem phoneParse_isOk (v : Value) :
    (phoneParse v).isOk = phoneMatch (pyStr v) := by
  by_cases h : phoneMatch (pyStr v) <;> simp [phoneParse, h, Except.isOk, Except.toBool]

theorem phoneMatch_iff (s : String) :
    phoneMatch s = true ↔
      ((dropTrailNl s.data).length = 11 ∧ (dropTrailNl s.data).head? = some '7' ∧
       ∀ c ∈ dropTrailNl s.data, c.isDigit = true) := by
  rcases hl : dropTrailNl s.data with _ | ⟨c, rest⟩
  · simp [phoneMatch, hl]
  · rw [phoneMatch, hl]
    simp only [List.length_cons, List.head?_cons, Option.some.injEq,
      Bool.and_eq_true, decide_eq_true_eq, List.all_eq_true, List.mem_cons]
    constructor
    · rintro ⟨⟨h7, hlen⟩, hall⟩
      refine ⟨by omega, h7, ?_⟩
      rintro x (rfl | hx)
      · rw [h7]; decide
      · exact hall x hx
    · rintro ⟨hlen, h7, hall⟩
      exact ⟨⟨h7, by omega⟩, fun x hx => hall x (Or.inr hx)⟩

/-- C8 counterexample: the integer 79991234567 is accepted by
PhoneField.parse, because the rule matches against str(value), refuting
"rejects non-string input". -/
theorem phone_rule_counterexample :
    (phoneParse (Value.int 79991234567)).isOk = true := by
  rw [phoneParse_isOk, pyStr_int]
  decide

/-- C8 (amended): the phone rule accepts a value iff str(value) — up to
the single trailing newline the $ anchor tolerates — is a string of
exactly 11 digits whose first digit is 7; in particular it accepts
"79991234567", and rejects a 10-digit string, a string starting with a
digit other than 7, a string with a non-numeric character, and None. -/
theorem phone_rule_spec :
    (∀ v : Value, (phoneParse v).isOk = true ↔
      ((dropTrailNl (pyStr v).data).length = 11 ∧
       (dropTrailNl (pyStr v).data).head? = some '7' ∧
       ∀ c ∈ dropTrailNl (pyStr v).data, c.isDigit = true)) ∧
    (phoneParse (Value.str "79991234567")).isOk = true ∧
    (phoneParse (Value.str "9991234567")).isOk = false ∧
    (phoneParse (Value.str "89991234567")).isOk = false ∧
    (phoneParse (Value.str "7999123456a")).isOk = false ∧
    (phoneParse Value.null).isOk = false := by
  refine ⟨?_, by rw [phoneParse_isOk, pyStr_str]; decide,
    by rw [phoneParse_isOk, pyStr_str]; decide,
    by rw [phoneParse_isOk, pyStr_str]; decide,
    by rw [phoneParse_isOk, pyStr_str]; decide,
    by rw [phoneParse_isOk, pyStr_null]; decide⟩
  intro v
  rw [phoneParse_isOk]
  exact phoneMatch_iff (pyStr v)

/-! The interests handler: shape of the response dict. -/

theorem pySample_length (k : Nat) :
    ∀ (rng : Nat → Nat) (pop : List String), k ≤ pop.length →
    (pySample rng k pop).length = k := by
  induction k with
  | zero => intro rng pop _; rfl
  | succ k ih =>
    intro rng pop h
    match pop with
    | [] => simp at h
    | p :: ps =>
      rw [pySample]
      simp only [List.length_cons]
      rw [ih _ _ ?_]
      have := List.length_eraseIdx_of_lt
        (l := p :: ps) (i := rng 0 % (p :: ps).length) (Nat.mod_lt _ (by simp))
      simp only [List.length_cons] at this h ⊢
      omega

theorem pySample_mem (k : Nat) :
    ∀ (rng : Nat → Nat) (pop : List String) (x : String),
    x ∈ pySample rng k pop → x ∈ pop := by
  induction k with
  | zero => intro rng pop x h; exact absurd h (List.not_mem_nil x)
  | succ k ih =>
    intro rng pop x h
    match pop with
    | [] => exact absurd h (List.not_mem_nil x)
    | p :: ps =>
      rw [pySample] at h
      rcases List.mem_cons.mp h with hh | ht
      · exact hh ▸ List.get_mem ..
      · exact List.mem_of_mem_eraseIdx (ih _ _ x ht)

/-- A sample list is well-shaped: two elements, all from the vocabulary. -/
def goodSample (v : List String) : Prop :=
  v.length = 2 ∧ ∀ x ∈ v, x ∈ interestsVocab

theorem pySample_good (rng : Nat → Nat) :
    goodSample (pySample rng 2 interestsVocab) :=
  ⟨pySample_length 2 rng interestsVocab (by decide),
   fun x hx => pySample_mem 2 rng interestsVocab x hx⟩

theorem dictInsert_keys (m : List (Int × List String)) (k : Int) (v : List String) :
    (dictInsert m k v).map Prod.fst =
      if k ∈ m.map Prod.fst then m.map Prod.fst else m.map Prod.fst ++ [k] := by
  rw [dictInsert]
  by_cases h : k ∈ m.map Prod.fst
  · have hc : m.any (fun p => p.1 = k) = true := by
      simp only [List.any_eq_true, decide_eq_true_eq]
      obtain ⟨p, hp, hpk⟩ := List.mem_map.mp h
      exact ⟨p, hp, hpk⟩
    rw [if_pos hc, if_pos h, List.map_map]
    apply List.map_congr_left
    intro p _
    by_cases hpk : p.1 = k <;> simp [hpk]
  · have hc : m.any (fun p => p.1 = k) = false := by
      simp only [List.any_eq_false, decide_eq_true_eq]
      intro p hp hpk
      exact h (List.mem_map.mpr ⟨p, hp, hpk⟩)
    rw [hc, if_neg h]
    simp

theorem dictInsert_mem (m : List (Int × List String)) (k : Int) (v : List String) :
    ∀ q ∈ dictInsert m k v, q = (k, v) ∨ q ∈ m := by
  intro q hq
  rw [dictInsert] at hq
  split at hq
  · obtain ⟨p, hp, hpq⟩ := List.mem_map.mp hq
    by_cases hpk : p.1 = k
    · simp only [hpk, if_pos] at hpq
      exact Or.inl hpq.symm
    · simp only [hpk, if_neg, if_false] at hpq
      exact Or.inr (hpq ▸ hp)
  · rcases List.mem_append.mp hq with h | h
    · exact Or.inr h
    · exact Or.inl (by simpa using h)

/-- The key list produced by inserting a stream of ids into a dict whose
keys are `seen`: first occurrences are appended, duplicates overwrite. -/
def insKeys (seen : List Int) : List Int → List Int
  | [] => seen
  | i :: rest => insKeys (if i ∈ seen then seen else seen ++ [i]) rest

theorem insKeys_mem (l : List Int) :
    ∀ (seen : List Int) (x : Int), x ∈ insKeys seen l ↔ x ∈ seen ∨ x ∈ l := by
  induction l with
  | nil => intro seen x; simp [insKeys]
  | cons i rest ih =>
    intro seen x
    rw [insKeys]
    by_cases hi : i ∈ seen
    · rw [if_pos hi, ih]
      constructor
      · rintro (h | h)
        · exact Or.inl h
        · exact Or.inr (List.mem_cons_of_mem i h)
      · rintro (h | h)
        · exact Or.inl h
        · rcases List.mem_cons.mp h with rfl | h
          · exact Or.inl hi
          · exact Or.inr h
    · rw [if_neg hi, ih]
      simp only [List.mem_append, List.mem_cons, List.mem_singleton]
      tauto

theorem insKeys_nodup (l : List Int) :
    ∀ seen : List Int, seen.Nodup → (insKeys seen l).Nodup := by
  induction l with
  | nil => intro seen h; exact h
  | cons i rest ih =>
    intro seen h
    rw [insKeys]
    by_cases hi : i ∈ seen
    · rw [if_pos hi]; exact ih seen h
    · rw [if_neg hi]
      exact ih _ (by simp [List.nodup_append, h, hi])

theorem interestsGo_keys (rng : Nat → Nat) (ids : List Int) :
    ∀ (acc : List (Int × List String)),
    (interestsGo rng acc ids).map Prod.fst = insKeys (acc.map Prod.fst) ids := by
  induction ids generalizing rng with
  | nil => intro acc; rfl
  | cons i rest ih =>
    intro acc
    rw [interestsGo, insKeys, ih, dictInsert_keys]

theorem interestsGo_values (rng : Nat → Nat) (ids : List Int) :
    ∀ (acc : List (Int × List String)), (∀ q ∈ acc, goodSample q.2) →
    ∀ q ∈ interestsGo rng acc ids, goodSample q.2 := by
  induction ids generalizing rng with
  | nil => intro acc hacc q hq; exact hacc q hq
  | cons i rest ih =>
    intro acc hacc q hq
    rw [interestsGo] at hq
    refine ih _ _ ?_ q hq
    intro q' hq'
    rcases dictInsert_mem acc i (pySample rng 2 interestsVocab) q' hq' with h | h
    · rw [h]; exact pySample_good rng
    · exact hacc q' h

/-- C10: for every random stream and every client id list, the interests
handler returns status OK and a dict with pairwise-distinct keys, one key
per supplied client id (a key occurs iff the id was supplied), each mapped
to a sample of exactly the configured size 2 drawn from the interest
vocabulary; in particular for client_ids = [1, 2, 3] the keys are exactly
the three supplied ids, whatever the randomized contents. -/
theorem interests_handler_shape (rng : Nat → Nat) (clientIds : List Int) :
    ((processing_handler rng clientIds).1.1.map Prod.fst).Nodup ∧
    (∀ i : Int, i ∈ (processing_handler rng clientIds).1.1.map Prod.fst ↔
      i ∈ clientIds) ∧
    (∀ q ∈ (processing_handler rng clientIds).1.1,
      q.2.length = 2 ∧ ∀ x ∈ q.2, x ∈ interestsVocab) ∧
    (processing_handler rng [1, 2, 3]).1.1.map Prod.fst = [1, 2, 3] ∧
    (processing_handler rng clientIds).2 = OK := by
  have hkeys : ∀ (r : Nat → Nat) (ids : List Int),
      (processing_handler r ids).1.1.map Prod.fst = insKeys [] ids := by
    intro r ids
    have := interestsGo_keys r ids []
    simpa [processing_handler, interestsResponse] using this
  refine ⟨?_, ?_, ?_, ?_, rfl⟩
  · rw [hkeys]
    exact insKeys_nodup clientIds [] List.nodup_nil
  · intro i
    rw [hkeys, insKeys_mem]
    simp
  · intro q hq
    exact interestsGo_values rng clientIds [] (by simp) q hq
  · rw [hkeys]
    rfl

/-! The birthday rule and the date round trip. -/

theorem isDigit_bounds {c : Char} (h : c.isDigit = true) :
    48 ≤ c.toNat ∧ c.toNat ≤ 57 := by
  simp only [Char.isDigit, Bool.and_eq_true, ge_iff_le, decide_eq_true_eq] at h
  exact ⟨UInt32.le_toNat_of_le (by norm_num) h.1,
    UInt32.toNat_le_of_le (by norm_num) h.2⟩

theorem dval_le {c : Char} (h : c.isDigit = true) : dval c ≤ 9 := by
  have := isDigit_bounds h
  unfold dval
  omega

theorem ofDigit_dval {c : Char} (h : c.isDigit = true) : ofDigit (dval c) = c := by
  have hb := isDigit_bounds h
  unfold ofDigit dval
  have he : 48 + (c.toNat - 48) = c.toNat := by omega
  rw [he, Char.ofNat_toNat]

/-- C7: on a string the date rule accepts as the date t, the birthday rule
succeeds (with the same date) exactly when current_year - parsed_year is at
most 70, and fails with the age-limit error exactly when the difference
exceeds 70. -/
theorem birthday_rule_spec (currentYear : Nat) (s : String) (t : PyDate)
    (h : dateParse (Value.str s) = .ok t) :
    (birthdayParse currentYear (Value.str s) = .ok t ↔
      (currentYear : Int) - (t.year : Int) ≤ (AGE_LIMIT : Int)) ∧
    (birthdayParse currentYear (Value.str s) =
        .error "Age limit validation failed. Maximum value is 70 years." ↔
      (currentYear : Int) - (t.year : Int) > (AGE_LIMIT : Int)) := by
  rw [birthdayParse, h]
  by_cases hage : (currentYear : Int) - (t.year : Int) > (AGE_LIMIT : Int) <;>
    simp [hage] <;> omega

/-- Witness for C7 at "12.03.1990" with current year 2026 (difference 36,
within the limit). -/
theorem birthday_rule_spec_witness :
    dateParse (Value.str "12.03.1990") = .ok ⟨1990, 3, 12⟩ ∧
    birthdayParse 2026 (Value.str "12.03.1990") = .ok ⟨1990, 3, 12⟩ := by
  refine ⟨by rfl, ?_⟩
  exact (birthday_rule_spec 2026 "12.03.1990" ⟨1990, 3, 12⟩ (by rfl)).1.mpr
    (by decide)

/-- The claim's "DD.MM.YYYY form": two digits, a dot, two digits, a dot,
four digits. -/
def strictForm : List Char → Bool
  | [d1, d2, c1, m1, m2, c2, y1, y2, y3, y4] =>
    d1.isDigit && d2.isDigit && c1 = '.' && m1.isDigit && m2.isDigit && c2 = '.' &&
    y1.isDigit && y2.isDigit && y3.isDigit && y4.isDigit
  | _ => false

/-- A date string is in strict DD.MM.YYYY form. -/
def strictDMY (s : String) : Bool := strictForm s.data

theorem strictForm_shape (l : List Char) (h : strictForm l = true) :
    ∃ d1 d2 m1 m2 y1 y2 y3 y4 : Char,
      l = [d1, d2, '.', m1, m2, '.', y1, y2, y3, y4] ∧
      d1.isDigit = true ∧ d2.isDigit = true ∧ m1.isDigit = true ∧
      m2.isDigit = true ∧ y1.isDigit = true ∧ y2.isDigit = true ∧
      y3.isDigit = true ∧ y4.isDigit = true := by
  unfold strictForm at h
  split at h
  · next d1 d2 c1 m1 m2 c2 y1 y2 y3 y4 =>
    simp only [Bool.and_eq_true, decide_eq_true_eq] at h
    obtain ⟨⟨⟨⟨⟨⟨⟨⟨⟨h1, h2⟩, h3⟩, h4⟩, h5⟩, h6⟩, h7⟩, h8⟩, h9⟩, h10⟩ := h
    exact ⟨d1, d2, m1, m2, y1, y2, y3, y4, by rw [h3, h6], h1, h2, h4, h5, h7, h8, h9, h10⟩
  · exact absurd h (by simp)

/-- C9: a date string in DD.MM.YYYY form that the date rule accepts
reformats, via strftime with the same pattern, to the original string. -/
theorem date_roundtrip (s : String) (t : PyDate)
    (hform : strictDMY s = true) (h : dateParse (Value.str s) = .ok t) :
    strftimeDMY t = s := by
  obtain ⟨d1, d2, m1, m2, y1, y2, y3, y4, hl, hd1, hd2, hm1, hm2, hy1, hy2, hy3, hy4⟩ :=
    strictForm_shape s.data hform
  have hcomp : strptimeDMY s.data =
      mkValidDate (1000 * dval y1 + 100 * dval y2 + 10 * dval y3 + dval y4)
        (10 * dval m1 + dval m2) (10 * dval d1 + dval d2) := by
    rw [hl]
    simp [strptimeDMY, read2, read4, expectDot, hd1, hd2, hm1, hm2, hy1, hy2, hy3, hy4]
  have h2 : strptimeDMY s.data = some t := by
    simp only [dateParse] at h
    cases hsp : strptimeDMY s.data with
    | none => rw [hsp] at h; exact absurd h (by simp)
    | some d => rw [hsp] at h; simp at h; rw [h]
  rw [hcomp, mkValidDate] at h2
  split at h2
  case isFalse => exact absurd h2 (by simp)
  case isTrue hvalid =>
    have ht : t = ⟨1000 * dval y1 + 100 * dval y2 + 10 * dval y3 + dval y4,
        10 * dval m1 + dval m2, 10 * dval d1 + dval d2⟩ := by
      injection h2 with h2
      exact h2.symm
    subst ht
    have bd1 := dval_le hd1
    have bd2 := dval_le hd2
    have bm1 := dval_le hm1
    have bm2 := dval_le hm2
    have by1 := dval_le hy1
    have by2 := dval_le hy2
    have by3 := dval_le hy3
    have by4 := dval_le hy4
    have e1 : (10 * dval d1 + dval d2) / 10 = dval d1 := by omega
    have e2 : (10 * dval d1 + dval d2) % 10 = dval d2 := by omega
    have e3 : (10 * dval m1 + dval m2) / 10 = dval m1 := by omega
    have e4 : (10 * dval m1 + dval m2) % 10 = dval m2 := by omega
    have e5 : (1000 * dval y1 + 100 * dval y2 + 10 * dval y3 + dval y4) / 1000 % 10 =
        dval y1 := by omega
    have e6 : (1000 * dval y1 + 100 * dval y2 + 10 * dval y3 + dval y4) / 100 % 10 =
        dval y2 := by omega
    have e7 : (1000 * dval y1 + 100 * dval y2 + 10 * dval y3 + dval y4) / 10 % 10 =
        dval y3 := by omega
    have e8 : (1000 * dval y1 + 100 * dval y2 + 10 * dval y3 + dval y4) % 10 =
        dval y4 := by omega
    apply String.ext
    show pad2 (10 * dval d1 + dval d2) ++ '.' :: pad2 (10 * dval m1 + dval m2) ++
      '.' :: pad4 (1000 * dval y1 + 100 * dval y2 + 10 * dval y3 + dval y4) = s.data
    rw [hl, pad2, pad2, pad4, e1, e2, e3, e4, e5, e6, e7, e8,
      ofDigit_dval hd1, ofDigit_dval hd2, ofDigit_dval hm1, ofDigit_dval hm2,
      ofDigit_dval hy1, ofDigit_dval hy2, ofDigit_dval hy3, ofDigit_dval hy4]
    rfl

/-- Witness for C9 at the spec's example "12.03.1990". -/
theorem date_roundtrip_witness :
    strictDMY "12.03.1990" = true ∧
    dateParse (Value.str "12.03.1990") = .ok ⟨1990, 3, 12⟩ ∧
    strftimeDMY ⟨1990, 3, 12⟩ = "12.03.1990" :=
  ⟨by decide, by rfl,
    date_roundtrip "12.03.1990" ⟨1990, 3, 12⟩ (by decide) (by rfl)⟩

end ScoringApi
